import Mathlib

/-!
Verification development for the CivicIndia citizen-engagement web
application.  Each definition below is a shallow embedding of a function
or data shape from the repository sources (the ReportNow, TrackReport,
Admin, Leaderboard, Education and Contact screens).  Floating-point
coordinate fields (latitude/longitude) are omitted from the report model:
no verified property mentions them.
-/

namespace CivicIndia

/-- The six-value report status enum fixed by the backend schema. -/
inductive ReportStatus where
  | submitted
  | in_review
  | assigned
  | in_progress
  | resolved
  | rejected
deriving DecidableEq, Fintype

/-- A row of the `reports` table, as typed in TrackReport/Admin
(`interface Report`).  `city` is optional: the Admin search uses
`report.city?.toLowerCase()`. -/
structure Report where
  id : String
  report_number : String
  user_id : Option String
  title : String
  description : String
  category : String
  severity : String
  status : ReportStatus
  address : String
  city : Option String
  state : String
  pincode : String
  image_urls : List String
  assigned_to : Option String
  authority_remarks : Option String
  created_at : String
  updated_at : String
  resolved_at : Option String
deriving DecidableEq

/-- Embedding of the JS `Array.prototype.findIndex` / `indexOf` search,
returning the zero-based index of the first element satisfying `p`. -/
def findIndexFrom {α : Type} (p : α → Bool) : List α → Option Nat
  | [] => none
  | x :: xs => if p x then some 0 else (findIndexFrom p xs).map (· + 1)

/-- TrackReport `statusOrder`: the fixed 5-step timeline sequence. -/
def statusOrder : List ReportStatus :=
  [ReportStatus.submitted, ReportStatus.in_review, ReportStatus.assigned,
   ReportStatus.in_progress, ReportStatus.resolved]

/-- TrackReport `getStatusIndex`: `statusOrder.indexOf(status)`, which is
`-1` when the status does not occur in the sequence. -/
def getStatusIndex (status : ReportStatus) : Int :=
  match findIndexFrom (fun t => t = status) statusOrder with
  | some i => (i : Int)
  | none => -1

/-- TrackReport timeline step rendering:
`const isCompleted = getStatusIndex(report.status) >= index`. -/
def isCompleted (status : ReportStatus) (index : Nat) : Bool :=
  decide ((index : Int) ≤ getStatusIndex status)

/-- TrackReport `statusConfig[...].label`: the badge label shown for each
status, including the terminal `rejected` state. -/
def statusLabel : ReportStatus → String
  | ReportStatus.submitted => "Submitted"
  | ReportStatus.in_review => "In Review"
  | ReportStatus.assigned => "Assigned"
  | ReportStatus.in_progress => "In Progress"
  | ReportStatus.resolved => "Resolved"
  | ReportStatus.rejected => "Rejected"

/-! ## Admin dashboard (Admin.tsx) -/

/-- Admin `interface Stats`: the four displayed tiles. -/
structure Stats where
  total : Nat
  submitted : Nat
  in_progress : Nat
  resolved : Nat
deriving DecidableEq

/-- Admin `fetchReports` in-progress bucket membership:
`['in_review', 'assigned', 'in_progress'].includes(r.status)`. -/
def inProgressBucket (s : ReportStatus) : Bool :=
  [ReportStatus.in_review, ReportStatus.assigned, ReportStatus.in_progress].contains s

/-- Admin `fetchReports` stats computation over the fetched list. -/
def computeStats (allReports : List Report) : Stats :=
  { total := allReports.length
    submitted := (allReports.filter (fun r => decide (r.status = ReportStatus.submitted))).length
    in_progress := (allReports.filter (fun r => inProgressBucket r.status)).length
    resolved := (allReports.filter (fun r => decide (r.status = ReportStatus.resolved))).length }

/-- Admin `updateData` form state: strings, empty meaning unset. -/
structure UpdateForm where
  status : String
  assigned_to : String
  remarks : String
deriving DecidableEq

/-- The partial update payload built by `handleUpdateReport`: a field is
present exactly when it was assigned into the `updates` object. -/
structure ReportUpdates where
  status : Option String
  assigned_to : Option String
  authority_remarks : Option String
  resolved_at : Option String
deriving DecidableEq

/-- Admin `handleUpdateReport` payload construction: each field is added
only when the corresponding form string is truthy (non-empty), and
`resolved_at` is stamped exactly when the selected status is
`"resolved"`. -/
def buildUpdates (updateData : UpdateForm) (now : String) : ReportUpdates :=
  { status := if updateData.status = "" then none else some updateData.status
    assigned_to := if updateData.assigned_to = "" then none else some updateData.assigned_to
    authority_remarks := if updateData.remarks = "" then none else some updateData.remarks
    resolved_at := if updateData.status = "resolved" then some now else none }

/-- Parse a status string of the backend enum; any other string is not a
valid enum value. -/
def parseStatus : String → Option ReportStatus
  | "submitted" => some ReportStatus.submitted
  | "in_review" => some ReportStatus.in_review
  | "assigned" => some ReportStatus.assigned
  | "in_progress" => some ReportStatus.in_progress
  | "resolved" => some ReportStatus.resolved
  | "rejected" => some ReportStatus.rejected
  | _ => none

/-- Backend semantics of the row update issued by `handleUpdateReport`:
only fields present in the payload change, every other column keeps its
value. -/
def applyUpdates (r : Report) (u : ReportUpdates) : Report :=
  { r with
    status := match u.status.bind parseStatus with
      | some s => s
      | none => r.status
    assigned_to := match u.assigned_to with
      | some a => some a
      | none => r.assigned_to
    authority_remarks := match u.authority_remarks with
      | some m => some m
      | none => r.authority_remarks
    resolved_at := match u.resolved_at with
      | some t => some t
      | none => r.resolved_at }

/-- Prefix test on character lists (model of JS string search). -/
def leadsWith : List Char → List Char → Bool
  | [], _ => true
  | _ :: _, [] => false
  | p :: ps, c :: cs => p == c && leadsWith ps cs

/-- Substring test on character lists: some suffix starts with `pat`. -/
def hasSub : List Char → List Char → Bool
  | pat, [] => leadsWith pat []
  | pat, c :: cs => leadsWith pat (c :: cs) || hasSub pat cs

/-- JS `s.includes(pat)` on strings. -/
def strContains (s pat : String) : Bool := hasSub pat.data s.data

/-- JS `s.toLowerCase()`. -/
def lowerStr (s : String) : String := String.mk (s.data.map Char.toLower)

/-- Admin `filteredReports` predicate: title, tracking number or (when
present) city contains the lowercased search query. -/
def matchesSearch (searchQuery : String) (report : Report) : Bool :=
  strContains (lowerStr report.title) (lowerStr searchQuery)
  || strContains (lowerStr report.report_number) (lowerStr searchQuery)
  || (match report.city with
      | some city => strContains (lowerStr city) (lowerStr searchQuery)
      | none => false)

/-- Admin `filteredReports`: client-side search over the fetched list. -/
def filteredReports (reports : List Report) (searchQuery : String) : List Report :=
  reports.filter (matchesSearch searchQuery)

/-! ## Report submission (ReportNow) -/

/-- ReportNow `formData` fields relevant to submission (coordinates are
omitted: no verified property mentions them). -/
structure SubmitForm where
  category : String
  severity : String
  title : String
  description : String
  address : String
  city : String
  state : String
  pincode : String
deriving DecidableEq

/-- ReportNow `handleImageUpload`: append the newly chosen files,
keeping at most `5 - images.length` of them
(`Array.from(files).slice(0, 5 - images.length)`). -/
def handleImageUpload (images : List String) (files : List String) : List String :=
  images ++ files.take (5 - images.length)

/-- ReportNow upload loop: one outcome per selected image, `some url`
when the storage upload returned no error; a failed upload pushes
nothing. -/
def uploadImages (outcomes : List (Option String)) : List String :=
  outcomes.filterMap id

/-- Modelled from the spec: the `reports` insert issued by ReportNow
`handleSubmit`.  The database assigns the tracking number via a trigger
and the status column defaults to "submitted"; neither mechanism is in
this layer of the repository, so both are taken from the spec (sections
3 and 4.1). -/
def dbInsertReport (userId : String) (form : SubmitForm) (imageUrls : List String)
    (rowId trackingNumber now : String) : Report :=
  { id := rowId
    report_number := trackingNumber
    user_id := some userId
    title := form.title
    description := form.description
    category := form.category
    severity := form.severity
    status := ReportStatus.submitted
    address := form.address
    city := some form.city
    state := form.state
    pincode := form.pincode
    image_urls := imageUrls
    assigned_to := none
    authority_remarks := none
    created_at := now
    updated_at := now
    resolved_at := none }

/-- ReportNow `handleSubmit`: reject when any required field is empty
(falsy), otherwise upload images, collect the successful URLs and insert
one report row referencing them. -/
def handleSubmit (userId : String) (form : SubmitForm) (outcomes : List (Option String))
    (rowId trackingNumber now : String) : Option Report :=
  if form.category = "" || form.title = "" || form.description = "" then none
  else some (dbInsertReport userId form (uploadImages outcomes) rowId trackingNumber now)

/-! ## Report tracking (TrackReport) -/

/-- Outcome of TrackReport `searchReport`: which toast is raised and
which report, if any, is displayed. -/
inductive SearchOutcome where
  | emptyIdToast
  | notFoundToast
  | found (r : Report)
  | searchFailedToast
deriving DecidableEq

/-- `const reportId = id || searchId.trim()`: a passed identifier wins
unless it is falsy (empty). -/
def effectiveId (idArg : Option String) (searchId : String) : String :=
  match idArg with
  | some s => if s = "" then searchId.trim else s
  | none => searchId.trim

/-- Backend `.maybeSingle()` semantics: zero rows give no data, one row
gives it, several matching rows are an error. -/
def maybeSingle (rows : List Report) : Except Unit (Option Report) :=
  match rows with
  | [] => Except.ok none
  | [r] => Except.ok (some r)
  | _ => Except.error ()

/-- The rows a `.maybeSingle()` lookup actually delivers. -/
def deliveredRows : Except Unit (Option Report) → List Report
  | Except.ok none => []
  | Except.ok (some r) => [r]
  | Except.error _ => []

/-- TrackReport `searchReport`: resolve the identifier, reject an empty
one, fetch at most one row matching `report_number`, toast "not found"
and clear the display when there is none. -/
def searchReport (idArg : Option String) (searchId : String) (db : List Report) :
    SearchOutcome :=
  let reportId := effectiveId idArg searchId
  if reportId = "" then SearchOutcome.emptyIdToast
  else
    match maybeSingle (db.filter (fun r => decide (r.report_number = reportId))) with
    | Except.error _ => SearchOutcome.searchFailedToast
    | Except.ok none => SearchOutcome.notFoundToast
    | Except.ok (some r) => SearchOutcome.found r

/-- The report shown after a search (`setReport`). -/
def displayedReport : SearchOutcome → Option Report
  | SearchOutcome.found r => some r
  | _ => none

/-! ## Leaderboard -/

/-- A `profiles` row as fetched by the leaderboard. -/
structure Profile where
  id : String
  user_id : String
  full_name : String
  points : Int
  city : String
deriving DecidableEq

/-- Leaderboard badge counting: occurrences of a user id among the
fetched `user_badges` rows. -/
def badgeCount (badgeUserIds : List String) (uid : String) : Nat :=
  (badgeUserIds.filter (fun b => decide (b = uid))).length

/-- Leaderboard enrichment: each fetched profile paired with its badge
count, in fetch order. -/
def enrichLeaderboard (data : List Profile) (badgeUserIds : List String) :
    List (Profile × Nat) :=
  data.map (fun p => (p, badgeCount badgeUserIds p.user_id))

/-- Number of fetched profiles with strictly more points than `p`. -/
def greaterCount (l : List Profile) (p : Profile) : Nat :=
  (l.filter (fun q => decide (p.points < q.points))).length

/-- Leaderboard user rank: `findIndex` over the fetched list, plus one
when found (`setUserRank(userIndex + 1)`). -/
def fetchUserRank (l : List Profile) (uid : String) : Option Nat :=
  match findIndexFrom (fun p => decide (p.user_id = uid)) l with
  | some i => some (i + 1)
  | none => none

/-! ## Education / quiz (Education.tsx) -/

/-- A `user_quiz_progress` row as fetched (`interface UserProgress`). -/
structure UserProgress where
  quiz_id : String
  is_correct : Bool
deriving DecidableEq

/-- A `quizzes` row (`interface Quiz`). -/
structure Quiz where
  id : String
  question : String
  options : List String
  correct_answer : Nat
  points : Nat
  category_id : String
deriving DecidableEq

/-- Education `getCategoryQuizzes`. -/
def getCategoryQuizzes (quizzes : List Quiz) (categoryId : String) : List Quiz :=
  quizzes.filter (fun q => decide (q.category_id = categoryId))

/-- The record returned by Education `getCategoryProgress`. -/
structure CategoryProgress where
  completed : Nat
  total : Nat
  correct : Nat
deriving DecidableEq

/-- Education `getCategoryProgress`: progress rows whose quiz id belongs
to the category, counted against the category question count. -/
def getCategoryProgress (quizzes : List Quiz) (userProgress : List UserProgress)
    (categoryId : String) : CategoryProgress :=
  let categoryQuizzes := getCategoryQuizzes quizzes categoryId
  let completedQuizzes := userProgress.filter
    (fun p => categoryQuizzes.any (fun q => decide (q.id = p.quiz_id)))
  { completed := completedQuizzes.length
    total := categoryQuizzes.length
    correct := (completedQuizzes.filter (fun p => p.is_correct)).length }

/-- The Education component state touched by `handleAnswer`, plus the
list of `user_quiz_progress` inserts issued to the backend during the
session. -/
structure EduState where
  userProgress : List UserProgress
  inserts : List UserProgress
  showResult : Bool
  selectedAnswer : Option Nat
deriving DecidableEq

/-- Education `handleAnswer` for a signed-in user: a no-op while the
result is shown; otherwise record the selection, and insert a progress
row (appending it to the local list) only when the fetched progress has
no record for the current quiz id. -/
def handleAnswer (st : EduState) (currentQuiz : Quiz) (answerIndex : Nat) : EduState :=
  if st.showResult then st
  else
    let isCorrect := decide (answerIndex = currentQuiz.correct_answer)
    let alreadyAnswered := st.userProgress.any (fun p => decide (p.quiz_id = currentQuiz.id))
    let st1 := { st with selectedAnswer := some answerIndex, showResult := true }
    if alreadyAnswered then st1
    else
      { st1 with
        userProgress := st1.userProgress ++ [⟨currentQuiz.id, isCorrect⟩]
        inserts := st1.inserts ++ [⟨currentQuiz.id, isCorrect⟩] }

/-- Session events affecting the answer state: answering, or moving on
(`handleNext` resets `selectedAnswer` and `showResult`). -/
inductive EduEvent where
  | answer (answerIndex : Nat)
  | next
deriving DecidableEq

/-- One step of the quiz session on a fixed current question. -/
def eduStep (currentQuiz : Quiz) (st : EduState) : EduEvent → EduState
  | EduEvent.answer i => handleAnswer st currentQuiz i
  | EduEvent.next => { st with showResult := false, selectedAnswer := none }

/-- Run a sequence of session events from a fetched state. -/
def runQuizSession (currentQuiz : Quiz) (st : EduState) (events : List EduEvent) : EduState :=
  events.foldl (eduStep currentQuiz) st

/-- Number of progress records for a given quiz id. -/
def countFor (l : List UserProgress) (qid : String) : Nat :=
  (l.filter (fun p => decide (p.quiz_id = qid))).length

/-! ## Contact form (Contact.tsx) -/

/-- Contact `formData`. -/
structure ContactForm where
  name : String
  email : String
  subject : String
  message : String
deriving DecidableEq

/-- A `contact_messages` row. -/
structure ContactMessage where
  name : String
  email : String
  subject : String
  message : String
deriving DecidableEq

/-- Per-field error messages (`fieldErrors`), `none` when the field
passed. -/
structure ContactErrors where
  name : Option String
  email : Option String
  subject : Option String
  message : Option String
deriving DecidableEq

/-- The `contactSchema` checks: name 2..100, email valid and at most
255, subject 5..200, message 10..1000.  The email format test is the
zod library regex, which is outside this repository, so it is taken as
a parameter.  When several checks fail for one field, `fieldErrors`
keeps the last reported issue, hence the max-length message wins. -/
def contactValidate (emailOk : String → Bool) (f : ContactForm) : ContactErrors :=
  { name :=
      if 100 < f.name.length then some "String must contain at most 100 character(s)"
      else if f.name.length < 2 then some "Name must be at least 2 characters"
      else none
    email :=
      if 255 < f.email.length then some "String must contain at most 255 character(s)"
      else if emailOk f.email = false then some "Please enter a valid email address"
      else none
    subject :=
      if 200 < f.subject.length then some "String must contain at most 200 character(s)"
      else if f.subject.length < 5 then some "Subject must be at least 5 characters"
      else none
    message :=
      if 1000 < f.message.length then some "String must contain at most 1000 character(s)"
      else if f.message.length < 10 then some "Message must be at least 10 characters"
      else none }

/-- Whether `safeParse` succeeded: no field has an issue. -/
def noErrors (e : ContactErrors) : Bool :=
  e.name.isNone && e.email.isNone && e.subject.isNone && e.message.isNone

/-- Outcome of Contact `handleSubmit`: either the per-field errors are
set and nothing is sent, or one `contact_messages` row is inserted. -/
inductive ContactOutcome where
  | failure (errors : ContactErrors)
  | inserted (row : ContactMessage)
deriving DecidableEq

/-- Contact `handleSubmit`: validate locally first, insert only on
success. -/
def contactHandleSubmit (emailOk : String → Bool) (f : ContactForm) : ContactOutcome :=
  let errs := contactValidate emailOk f
  if noErrors errs then
    ContactOutcome.inserted ⟨f.name, f.email, f.subject, f.message⟩
  else ContactOutcome.failure errs

/-- The insert issued by a contact submission, if any. -/
def issuedInsert : ContactOutcome → Option ContactMessage
  | ContactOutcome.inserted m => some m
  | ContactOutcome.failure _ => none

/-- C7: the status timeline uses exactly the ordered 5-step sequence
submitted, in_review, assigned, in_progress, resolved; a step is marked
completed exactly when the status index in that sequence is at least the
step index; `rejected` has index `-1`, so no timeline step is completed
for a rejected report, and rejected still has a badge label. -/
theorem track_timeline_fivesteps :
    statusOrder = [ReportStatus.submitted, ReportStatus.in_review,
      ReportStatus.assigned, ReportStatus.in_progress, ReportStatus.resolved]
    ∧ statusOrder.length = 5
    ∧ (∀ i : Fin statusOrder.length, getStatusIndex (statusOrder.get i) = (i : Nat))
    ∧ getStatusIndex ReportStatus.rejected = -1
    ∧ ReportStatus.rejected ∉ statusOrder
    ∧ (∀ i : Fin statusOrder.length, isCompleted ReportStatus.rejected i = false)
    ∧ (∀ s : ReportStatus, ∀ i : Fin statusOrder.length,
        isCompleted s i = true ↔ (i : Int) ≤ getStatusIndex s)
    ∧ statusLabel ReportStatus.rejected = "Rejected" := by
  refine ⟨rfl, rfl, ?_, rfl, by decide, ?_, ?_, rfl⟩
  · decide
  · decide
  · decide

/-- Helper: the in-progress bucket test as a decidable disjunction. -/
theorem inProgressBucket_val (s : ReportStatus) :
    inProgressBucket s
      = decide (s = ReportStatus.in_review ∨ s = ReportStatus.assigned
          ∨ s = ReportStatus.in_progress) := by
  cases s <;> rfl

/-- Helper: the four status filters cut the fetched list into disjoint
exhaustive classes, so their sizes sum to the list length. -/
theorem statusCountPartition (reports : List Report) :
    (reports.filter (fun r => decide (r.status = ReportStatus.submitted))).length
    + (reports.filter (fun r => inProgressBucket r.status)).length
    + (reports.filter (fun r => decide (r.status = ReportStatus.resolved))).length
    + (reports.filter (fun r => decide (r.status = ReportStatus.rejected))).length
    = reports.length := by
  induction reports with
  | nil => rfl
  | cons r t ih =>
      simp only [inProgressBucket_val] at ih ⊢
      cases h : r.status <;> simp [List.filter_cons, h] at ih ⊢ <;> omega

/-- C4: for an unfiltered fetch, the stats tiles partition the fetched
list by status: total is the list length, new counts exactly the
submitted reports, the in-progress tile counts exactly the
in_review/assigned/in_progress reports, resolved counts exactly the
resolved ones, and rejected reports appear only in the total. -/
theorem admin_stats_partition (reports : List Report) :
    (computeStats reports).total = reports.length
    ∧ (computeStats reports).submitted
        = (reports.filter (fun r => decide (r.status = ReportStatus.submitted))).length
    ∧ (computeStats reports).in_progress
        = (reports.filter (fun r => inProgressBucket r.status)).length
    ∧ (∀ s : ReportStatus, inProgressBucket s = true ↔
        s = ReportStatus.in_review ∨ s = ReportStatus.assigned ∨ s = ReportStatus.in_progress)
    ∧ (computeStats reports).resolved
        = (reports.filter (fun r => decide (r.status = ReportStatus.resolved))).length
    ∧ (computeStats reports).submitted + (computeStats reports).in_progress
        + (computeStats reports).resolved
        + (reports.filter (fun r => decide (r.status = ReportStatus.rejected))).length
      = (computeStats reports).total := by
  refine ⟨rfl, rfl, rfl, by decide, rfl, ?_⟩
  exact statusCountPartition reports

/-- C8: the admin update payload contains exactly the fields among
status, assignee and remarks whose form strings are non-empty;
`resolved_at` is stamped exactly when the selected status is
`"resolved"`; and applying the partial update leaves every other report
column unchanged. -/
theorem admin_update_partial_fields (updateData : UpdateForm) (now : String) (r : Report) :
    ((buildUpdates updateData now).status
        = if updateData.status = "" then none else some updateData.status)
    ∧ ((buildUpdates updateData now).assigned_to
        = if updateData.assigned_to = "" then none else some updateData.assigned_to)
    ∧ ((buildUpdates updateData now).authority_remarks
        = if updateData.remarks = "" then none else some updateData.remarks)
    ∧ ((buildUpdates updateData now).resolved_at ≠ none ↔ updateData.status = "resolved")
    ∧ (applyUpdates r (buildUpdates updateData now)).id = r.id
    ∧ (applyUpdates r (buildUpdates updateData now)).report_number = r.report_number
    ∧ (applyUpdates r (buildUpdates updateData now)).user_id = r.user_id
    ∧ (applyUpdates r (buildUpdates updateData now)).title = r.title
    ∧ (applyUpdates r (buildUpdates updateData now)).description = r.description
    ∧ (applyUpdates r (buildUpdates updateData now)).category = r.category
    ∧ (applyUpdates r (buildUpdates updateData now)).severity = r.severity
    ∧ (applyUpdates r (buildUpdates updateData now)).address = r.address
    ∧ (applyUpdates r (buildUpdates updateData now)).city = r.city
    ∧ (applyUpdates r (buildUpdates updateData now)).state = r.state
    ∧ (applyUpdates r (buildUpdates updateData now)).pincode = r.pincode
    ∧ (applyUpdates r (buildUpdates updateData now)).image_urls = r.image_urls
    ∧ (applyUpdates r (buildUpdates updateData now)).created_at = r.created_at
    ∧ (applyUpdates r (buildUpdates updateData now)).status
        = (match parseStatus updateData.status with
           | some s => s
           | none => r.status)
    ∧ (applyUpdates r (buildUpdates updateData now)).assigned_to
        = (if updateData.assigned_to = "" then r.assigned_to else some updateData.assigned_to)
    ∧ (applyUpdates r (buildUpdates updateData now)).authority_remarks
        = (if updateData.remarks = "" then r.authority_remarks else some updateData.remarks)
    ∧ (applyUpdates r (buildUpdates updateData now)).resolved_at
        = (if updateData.status = "resolved" then some now else r.resolved_at) := by
  have hps : parseStatus "" = none := by decide
  by_cases hs : updateData.status = "" <;>
    by_cases hr : updateData.status = "resolved" <;>
    by_cases ha : updateData.assigned_to = "" <;>
    by_cases hm : updateData.remarks = "" <;>
    simp_all [buildUpdates, applyUpdates]

/-- Helper: the empty pattern occurs in every character list. -/
theorem hasSub_nil (s : List Char) : hasSub [] s = true := by
  cases s <;> simp [hasSub, leadsWith]

/-- Helper: every report matches the empty search query. -/
theorem matchesSearch_empty (r : Report) : matchesSearch "" r = true := by
  have h : (lowerStr "").data = [] := by decide
  simp [matchesSearch, strContains, h, hasSub_nil]

/-- C10: with the empty search string the client-side admin filter is the
identity on the fetched list; for any search string the filtered list is
a subsequence of the fetched list; and a report with a null city is
matched purely through the title and tracking-number checks. -/
theorem admin_search_filter (reports : List Report) (searchQuery : String) :
    filteredReports reports "" = reports
    ∧ (filteredReports reports searchQuery).Sublist reports
    ∧ (∀ r : Report, matchesSearch searchQuery { r with city := none }
        = (strContains (lowerStr r.title) (lowerStr searchQuery)
           || strContains (lowerStr r.report_number) (lowerStr searchQuery))) := by
  refine ⟨?_, List.filter_sublist _, ?_⟩
  · exact List.filter_eq_self.mpr (fun r _ => matchesSearch_empty r)
  · intro r
    simp [matchesSearch]

/-- Helper: the number of collected URLs is the number of successful
uploads. -/
theorem uploadImages_length (outcomes : List (Option String)) :
    (uploadImages outcomes).length = (outcomes.filter Option.isSome).length := by
  induction outcomes with
  | nil => rfl
  | cons o t ih =>
      cases o <;> simp [uploadImages, List.filterMap_cons, List.filter_cons] at ih ⊢ <;>
        omega

/-- C1: a valid submission (category, title, description non-empty)
creates a row with status "submitted" whose image URL list has exactly
one entry per successful upload and at most 5 entries; failed uploads
are skipped without aborting, and the upload handler never lets the
image list exceed 5. -/
theorem report_submit_ok (userId : String) (form : SubmitForm)
    (outcomes : List (Option String)) (rowId trackingNumber now : String)
    (hcat : form.category ≠ "") (htitle : form.title ≠ "")
    (hdesc : form.description ≠ "") (hlen : outcomes.length ≤ 5) :
    ∃ row : Report,
      handleSubmit userId form outcomes rowId trackingNumber now = some row
      ∧ row.status = ReportStatus.submitted
      ∧ row.image_urls.length = (outcomes.filter Option.isSome).length
      ∧ row.image_urls.length ≤ 5
      ∧ (∀ images files : List String, images.length ≤ 5 →
          (handleImageUpload images files).length ≤ 5) := by
  refine ⟨dbInsertReport userId form (uploadImages outcomes) rowId trackingNumber now,
    ?_, rfl, uploadImages_length outcomes, ?_, ?_⟩
  · simp [handleSubmit, hcat, htitle, hdesc]
  · calc (uploadImages outcomes).length ≤ outcomes.length :=
          List.length_filterMap_le _ _
      _ ≤ 5 := hlen
  · intro images files hi
    simp [handleImageUpload]
    omega

/-- Witness for C1 at a concrete valid submission with one failed
upload among three. -/
theorem report_submit_ok_witness :
    ("garbage" : String) ≠ ""
    ∧ ("Overflowing bin" : String) ≠ ""
    ∧ ("The bin near the park gate has not been emptied" : String) ≠ ""
    ∧ ([some "url1", none, some "url2"] : List (Option String)).length ≤ 5
    ∧ ∃ row : Report,
        handleSubmit "user-1"
          ⟨"garbage", "medium", "Overflowing bin",
            "The bin near the park gate has not been emptied",
            "", "", "", ""⟩
          [some "url1", none, some "url2"] "row-1" "CIV-1" "2024-01-01" = some row
        ∧ row.status = ReportStatus.submitted
        ∧ row.image_urls.length
            = (([some "url1", none, some "url2"] : List (Option String)).filter
                Option.isSome).length
        ∧ row.image_urls.length ≤ 5
        ∧ (∀ images files : List String, images.length ≤ 5 →
            (handleImageUpload images files).length ≤ 5) :=
  ⟨by decide, by decide, by decide, by decide,
    report_submit_ok "user-1"
      ⟨"garbage", "medium", "Overflowing bin",
        "The bin near the park gate has not been emptied", "", "", "", ""⟩
      [some "url1", none, some "url2"] "row-1" "CIV-1" "2024-01-01"
      (by decide) (by decide) (by decide) (by decide)⟩

/-- C5: a lookup whose identifier matches no row raises the "not found"
toast and displays no report, without failing; and a `.maybeSingle()`
lookup delivers at most one row. -/
theorem track_search_not_found (idArg : Option String) (searchId : String)
    (db : List Report)
    (hne : effectiveId idArg searchId ≠ "")
    (hnomatch : db.filter
        (fun r => decide (r.report_number = effectiveId idArg searchId)) = []) :
    searchReport idArg searchId db = SearchOutcome.notFoundToast
    ∧ displayedReport (searchReport idArg searchId db) = none
    ∧ (∀ rows : List Report, (deliveredRows (maybeSingle rows)).length ≤ 1) := by
  have h1 : searchReport idArg searchId db = SearchOutcome.notFoundToast := by
    unfold searchReport
    simp [hne, hnomatch, maybeSingle]
  refine ⟨h1, by rw [h1]; rfl, ?_⟩
  intro rows
  match rows with
  | [] => simp [maybeSingle, deliveredRows]
  | [r] => simp [maybeSingle, deliveredRows]
  | a :: b :: t => simp [maybeSingle, deliveredRows]

/-- Witness for C5: an empty table and the identifier CIV404. -/
theorem track_search_not_found_witness :
    effectiveId (some "CIV404") "" ≠ ""
    ∧ ([] : List Report).filter
        (fun r => decide (r.report_number = effectiveId (some "CIV404") "")) = []
    ∧ (searchReport (some "CIV404") "" [] = SearchOutcome.notFoundToast
       ∧ displayedReport (searchReport (some "CIV404") "" []) = none
       ∧ (∀ rows : List Report, (deliveredRows (maybeSingle rows)).length ≤ 1)) :=
  ⟨by decide, rfl, track_search_not_found (some "CIV404") "" [] (by decide) rfl⟩

/-- Helper: a successful `findIndex` points inside the list at an
element satisfying the predicate. -/
theorem findIndexFrom_some {α : Type} (p : α → Bool) :
    ∀ (l : List α) (i : Nat), findIndexFrom p l = some i →
      ∃ h : i < l.length, p (l.get ⟨i, h⟩) = true := by
  intro l
  induction l with
  | nil => intro i hi; simp [findIndexFrom] at hi
  | cons x xs ih =>
      intro i hi
      cases hx : p x with
      | true =>
          simp [findIndexFrom, hx] at hi
          subst hi
          exact ⟨Nat.succ_pos _, hx⟩
      | false =>
          simp [findIndexFrom, hx] at hi
          obtain ⟨j, hj, rfl⟩ := hi
          obtain ⟨hlt, hp⟩ := ih j hj
          exact ⟨Nat.succ_lt_succ hlt, by simpa [List.get_cons_succ] using hp⟩

/-- Helper: in a strictly descending fetch order, the number of profiles
with strictly more points than the entry at position `i` is `i`. -/
theorem greaterCount_sorted :
    ∀ (l : List Profile), List.Pairwise (fun a b => b.points < a.points) l →
      ∀ (i : Nat) (h : i < l.length), greaterCount l (l.get ⟨i, h⟩) = i := by
  intro l
  induction l with
  | nil => intro _ i h; exact absurd h (by simp)
  | cons a t ih =>
      intro hs i h
      rw [List.pairwise_cons] at hs
      obtain ⟨ha, ht⟩ := hs
      cases i with
      | zero =>
          show greaterCount (a :: t) a = 0
          simp only [greaterCount, List.length_eq_zero, List.filter_eq_nil_iff]
          intro q hq
          simp only [decide_eq_true_eq]
          rcases List.mem_cons.mp hq with rfl | hq2
          · exact lt_irrefl _
          · have := ha q hq2
            omega
      | succ j =>
          have hj : j < t.length := by
            simpa using h
          have hget : (a :: t).get ⟨j + 1, h⟩ = t.get ⟨j, hj⟩ := rfl
          rw [hget]
          have hmem : t.get ⟨j, hj⟩ ∈ t := List.get_mem t j hj
          have hlt : (t.get ⟨j, hj⟩).points < a.points := ha _ hmem
          have hih := ih ht j hj
          simp only [greaterCount, List.filter_cons] at hih ⊢
          have hd : decide ((t.get ⟨j, hj⟩).points < a.points) = true := by
            simpa using hlt
          rw [hd]
          simp only [if_true, List.length_cons]
          omega

/-- C3: in a fetched leaderboard sorted by strictly descending points,
the displayed rank (fetch position plus one) of every entry equals one
plus the number of fetched profiles with strictly more points; the
signed-in user's rank is the same quantity at their `findIndex`
position; and badge enrichment preserves the fetched order. -/
theorem leaderboard_rank (data : List Profile) (badgeUserIds : List String) (uid : String)
    (hsorted : List.Pairwise (fun a b => a.points ≥ b.points) data)
    (hties : List.Pairwise (fun a b => a.points ≠ b.points) data) :
    (∀ (i : Nat) (h : i < data.length),
        i + 1 = 1 + greaterCount data (data.get ⟨i, h⟩))
    ∧ (∀ r : Nat, fetchUserRank data uid = some r →
        ∃ (i : Nat) (h : i < data.length),
          r = i + 1 ∧ (data.get ⟨i, h⟩).user_id = uid
          ∧ r = 1 + greaterCount data (data.get ⟨i, h⟩))
    ∧ (enrichLeaderboard data badgeUserIds).map Prod.fst = data := by
  have hstrict : List.Pairwise (fun a b => b.points < a.points) data :=
    (hsorted.and hties).imp (fun h => lt_of_le_of_ne h.1 (Ne.symm h.2))
  refine ⟨?_, ?_, ?_⟩
  · intro i h
    rw [greaterCount_sorted data hstrict i h]
    omega
  · intro r hr
    unfold fetchUserRank at hr
    cases hfi : findIndexFrom (fun p => decide (p.user_id = uid)) data with
    | none => rw [hfi] at hr; cases hr
    | some i =>
        rw [hfi] at hr
        obtain ⟨h, hp⟩ := findIndexFrom_some _ data i hfi
        have hri : r = i + 1 := by
          cases hr
          rfl
        refine ⟨i, h, hri, of_decide_eq_true hp, ?_⟩
        rw [greaterCount_sorted data hstrict i h, hri]
        omega
  · have he : enrichLeaderboard data badgeUserIds
        = data.map (fun p => (p, badgeCount badgeUserIds p.user_id)) := rfl
    rw [he, List.map_map]
    exact List.map_id data

/-- Witness for C3: a two-entry leaderboard with distinct descending
points, ranking the signed-in user u2. -/
theorem leaderboard_rank_witness :
    List.Pairwise (fun a b : Profile => a.points ≥ b.points)
      [⟨"p1", "u1", "Asha", 30, "Delhi"⟩, ⟨"p2", "u2", "Bela", 20, "Pune"⟩]
    ∧ List.Pairwise (fun a b : Profile => a.points ≠ b.points)
      [⟨"p1", "u1", "Asha", 30, "Delhi"⟩, ⟨"p2", "u2", "Bela", 20, "Pune"⟩]
    ∧ ((∀ (i : Nat)
          (h : i < ([⟨"p1", "u1", "Asha", 30, "Delhi"⟩,
            ⟨"p2", "u2", "Bela", 20, "Pune"⟩] : List Profile).length),
          i + 1 = 1 + greaterCount
            [⟨"p1", "u1", "Asha", 30, "Delhi"⟩, ⟨"p2", "u2", "Bela", 20, "Pune"⟩]
            (([⟨"p1", "u1", "Asha", 30, "Delhi"⟩,
              ⟨"p2", "u2", "Bela", 20, "Pune"⟩] : List Profile).get ⟨i, h⟩))
       ∧ (∀ r : Nat,
          fetchUserRank
            [⟨"p1", "u1", "Asha", 30, "Delhi"⟩, ⟨"p2", "u2", "Bela", 20, "Pune"⟩]
            "u2" = some r →
          ∃ (i : Nat)
            (h : i < ([⟨"p1", "u1", "Asha", 30, "Delhi"⟩,
              ⟨"p2", "u2", "Bela", 20, "Pune"⟩] : List Profile).length),
            r = i + 1
            ∧ (([⟨"p1", "u1", "Asha", 30, "Delhi"⟩,
                ⟨"p2", "u2", "Bela", 20, "Pune"⟩] : List Profile).get ⟨i, h⟩).user_id = "u2"
            ∧ r = 1 + greaterCount
                [⟨"p1", "u1", "Asha", 30, "Delhi"⟩, ⟨"p2", "u2", "Bela", 20, "Pune"⟩]
                (([⟨"p1", "u1", "Asha", 30, "Delhi"⟩,
                  ⟨"p2", "u2", "Bela", 20, "Pune"⟩] : List Profile).get ⟨i, h⟩))
       ∧ (enrichLeaderboard
            [⟨"p1", "u1", "Asha", 30, "Delhi"⟩, ⟨"p2", "u2", "Bela", 20, "Pune"⟩]
            ["u1"]).map Prod.fst
          = [⟨"p1", "u1", "Asha", 30, "Delhi"⟩, ⟨"p2", "u2", "Bela", 20, "Pune"⟩]) :=
  ⟨by decide, by decide,
    leaderboard_rank
      [⟨"p1", "u1", "Asha", 30, "Delhi"⟩, ⟨"p2", "u2", "Bela", 20, "Pune"⟩]
      ["u1"] "u2" (by decide) (by decide)⟩

/-- Helper: progress counts add over list concatenation. -/
theorem countFor_append (a b : List UserProgress) (qid : String) :
    countFor (a ++ b) qid = countFor a qid + countFor b qid := by
  simp [countFor, List.filter_append]

/-- Helper: no matching record means a zero count. -/
theorem countFor_zero_of_not_any (l : List UserProgress) (qid : String)
    (h : l.any (fun p => decide (p.quiz_id = qid)) = false) : countFor l qid = 0 := by
  simp only [countFor, List.length_eq_zero, List.filter_eq_nil_iff]
  intro p hp
  have := List.any_eq_false.mp h p hp
  simpa using this

/-- Helper: one session step preserves the answer-session invariant
(inserts extend the fetched progress, at most one insert for the current
quiz, inserts happen only when the fetched progress lacked the quiz). -/
theorem eduStep_preserves (st0 : EduState) (q : Quiz) (st : EduState) (ev : EduEvent)
    (h1 : st.userProgress = st0.userProgress ++ st.inserts)
    (h2 : st.inserts.length ≤ 1)
    (h3 : ∀ p ∈ st.inserts, p.quiz_id = q.id)
    (h4 : st.inserts ≠ [] → countFor st0.userProgress q.id = 0) :
    (eduStep q st ev).userProgress = st0.userProgress ++ (eduStep q st ev).inserts
    ∧ (eduStep q st ev).inserts.length ≤ 1
    ∧ (∀ p ∈ (eduStep q st ev).inserts, p.quiz_id = q.id)
    ∧ ((eduStep q st ev).inserts ≠ [] → countFor st0.userProgress q.id = 0) := by
  cases ev with
  | next => exact ⟨h1, h2, h3, h4⟩
  | answer i =>
      cases hsr : st.showResult with
      | true =>
          have hstep : eduStep q st (EduEvent.answer i) = st := by
            simp [eduStep, handleAnswer, hsr]
          rw [hstep]
          exact ⟨h1, h2, h3, h4⟩
      | false =>
          cases haa : st.userProgress.any (fun p => decide (p.quiz_id = q.id)) with
          | true =>
              have hstep : eduStep q st (EduEvent.answer i)
                  = { st with selectedAnswer := some i, showResult := true } := by
                simp [eduStep, handleAnswer, hsr, haa]
              rw [hstep]
              exact ⟨h1, h2, h3, h4⟩
          | false =>
              have hins : st.inserts = [] := by
                cases hi : st.inserts with
                | nil => rfl
                | cons p t =>
                    have hpq : p.quiz_id = q.id := h3 p (by simp [hi])
                    have hpmem : p ∈ st.userProgress := by
                      rw [h1, hi]
                      exact List.mem_append_right _ (List.mem_cons_self p t)
                    have hfalse := List.any_eq_false.mp haa p hpmem
                    simp [hpq] at hfalse
              have hstep : eduStep q st (EduEvent.answer i)
                  = { st with
                      selectedAnswer := some i
                      showResult := true
                      userProgress :=
                        st.userProgress ++ [⟨q.id, decide (i = q.correct_answer)⟩]
                      inserts :=
                        st.inserts ++ [⟨q.id, decide (i = q.correct_answer)⟩] } := by
                simp [eduStep, handleAnswer, hsr, haa]
              rw [hstep]
              have hz : countFor st0.userProgress q.id = 0 := by
                apply countFor_zero_of_not_any
                rw [h1, hins] at haa
                simpa using haa
              refine ⟨?_, ?_, ?_, fun _ => hz⟩
              · show st.userProgress ++ _ = st0.userProgress ++ (st.inserts ++ _)
                rw [h1, hins]
                simp
              · show (st.inserts ++ _).length ≤ 1
                rw [hins]
                simp
              · show ∀ p ∈ st.inserts ++ [_], p.quiz_id = q.id
                rw [hins]
                simp

/-- Helper: the session invariant is preserved by any event sequence. -/
theorem runQuizSession_inv (q : Quiz) (events : List EduEvent) :
    ∀ (st0 st : EduState),
      st.userProgress = st0.userProgress ++ st.inserts →
      st.inserts.length ≤ 1 →
      (∀ p ∈ st.inserts, p.quiz_id = q.id) →
      (st.inserts ≠ [] → countFor st0.userProgress q.id = 0) →
      ((runQuizSession q st events).userProgress
          = st0.userProgress ++ (runQuizSession q st events).inserts
       ∧ (runQuizSession q st events).inserts.length ≤ 1
       ∧ (∀ p ∈ (runQuizSession q st events).inserts, p.quiz_id = q.id)
       ∧ ((runQuizSession q st events).inserts ≠ [] →
            countFor st0.userProgress q.id = 0)) := by
  induction events with
  | nil => intro st0 st h1 h2 h3 h4; exact ⟨h1, h2, h3, h4⟩
  | cons ev evs ih =>
      intro st0 st h1 h2 h3 h4
      have h := eduStep_preserves st0 q st ev h1 h2 h3 h4
      have hrun : runQuizSession q st (ev :: evs)
          = runQuizSession q (eduStep q st ev) evs := rfl
      rw [hrun]
      exact ih st0 _ h.1 h.2.1 h.2.2.1 h.2.2.2

/-- C2: within one fetched session state holding at most one record for
the quiz, any number of answer-handler calls leaves at most one progress
record for the quiz, issues at most one insert, inserts only when the
fetched progress had no record for the quiz id, and extends the local
progress list exactly by the inserted records. -/
theorem quiz_answer_unique_progress (q : Quiz) (st0 : EduState) (events : List EduEvent)
    (hins : st0.inserts = [])
    (hcount : countFor st0.userProgress q.id ≤ 1) :
    countFor (runQuizSession q st0 events).userProgress q.id ≤ 1
    ∧ (runQuizSession q st0 events).inserts.length ≤ 1
    ∧ ((runQuizSession q st0 events).inserts ≠ [] →
        countFor st0.userProgress q.id = 0)
    ∧ (runQuizSession q st0 events).userProgress
        = st0.userProgress ++ (runQuizSession q st0 events).inserts
    ∧ (∀ p ∈ (runQuizSession q st0 events).inserts, p.quiz_id = q.id) := by
  have h := runQuizSession_inv q events st0 st0
    (by rw [hins]; simp) (by rw [hins]; simp)
    (by rw [hins]; simp) (by rw [hins]; simp [countFor])
  refine ⟨?_, h.2.1, h.2.2.2, h.1, h.2.2.1⟩
  rw [h.1, countFor_append]
  by_cases hne : (runQuizSession q st0 events).inserts = []
  · rw [hne]
    have hz : countFor [] q.id = 0 := rfl
    omega
  · have hz := h.2.2.2 hne
    have hle : countFor (runQuizSession q st0 events).inserts q.id
        ≤ (runQuizSession q st0 events).inserts.length :=
      List.length_filter_le _ _
    have hl2 := h.2.1
    omega

/-- Witness for C2: a fresh session repeatedly answering the same
question. -/
theorem quiz_answer_unique_progress_witness :
    (⟨[], [], false, none⟩ : EduState).inserts = []
    ∧ countFor (⟨[], [], false, none⟩ : EduState).userProgress "q1" ≤ 1
    ∧ (countFor (runQuizSession ⟨"q1", "Q", ["a", "b"], 0, 10, "cat1"⟩
          ⟨[], [], false, none⟩
          [EduEvent.answer 1, EduEvent.next, EduEvent.answer 0,
            EduEvent.next, EduEvent.answer 1]).userProgress "q1" ≤ 1
       ∧ (runQuizSession ⟨"q1", "Q", ["a", "b"], 0, 10, "cat1"⟩
            ⟨[], [], false, none⟩
            [EduEvent.answer 1, EduEvent.next, EduEvent.answer 0,
              EduEvent.next, EduEvent.answer 1]).inserts.length ≤ 1
       ∧ ((runQuizSession ⟨"q1", "Q", ["a", "b"], 0, 10, "cat1"⟩
            ⟨[], [], false, none⟩
            [EduEvent.answer 1, EduEvent.next, EduEvent.answer 0,
              EduEvent.next, EduEvent.answer 1]).inserts ≠ [] →
            countFor (⟨[], [], false, none⟩ : EduState).userProgress "q1" = 0)
       ∧ (runQuizSession ⟨"q1", "Q", ["a", "b"], 0, 10, "cat1"⟩
            ⟨[], [], false, none⟩
            [EduEvent.answer 1, EduEvent.next, EduEvent.answer 0,
              EduEvent.next, EduEvent.answer 1]).userProgress
          = (⟨[], [], false, none⟩ : EduState).userProgress
            ++ (runQuizSession ⟨"q1", "Q", ["a", "b"], 0, 10, "cat1"⟩
              ⟨[], [], false, none⟩
              [EduEvent.answer 1, EduEvent.next, EduEvent.answer 0,
                EduEvent.next, EduEvent.answer 1]).inserts
       ∧ (∀ p ∈ (runQuizSession ⟨"q1", "Q", ["a", "b"], 0, 10, "cat1"⟩
            ⟨[], [], false, none⟩
            [EduEvent.answer 1, EduEvent.next, EduEvent.answer 0,
              EduEvent.next, EduEvent.answer 1]).inserts,
            p.quiz_id = "q1")) :=
  ⟨rfl, by decide,
    quiz_answer_unique_progress ⟨"q1", "Q", ["a", "b"], 0, 10, "cat1"⟩
      ⟨[], [], false, none⟩
      [EduEvent.answer 1, EduEvent.next, EduEvent.answer 0,
        EduEvent.next, EduEvent.answer 1]
      rfl (by decide)⟩

/-- Counterexample to C6 as stated: with duplicated fetched progress
rows for one quiz (the race the spec itself flags), the ratio exceeds 1
on one input, and on another it equals 1 while a question of the
category has no progress record. -/
theorem category_progress_ratio_cex :
    ((getCategoryProgress
        [⟨"q1", "Q1", [], 0, 10, "cat"⟩, ⟨"q2", "Q2", [], 0, 10, "cat"⟩]
        [⟨"q1", true⟩, ⟨"q1", true⟩, ⟨"q1", false⟩] "cat").total
      < (getCategoryProgress
        [⟨"q1", "Q1", [], 0, 10, "cat"⟩, ⟨"q2", "Q2", [], 0, 10, "cat"⟩]
        [⟨"q1", true⟩, ⟨"q1", true⟩, ⟨"q1", false⟩] "cat").completed)
    ∧ ((getCategoryProgress
        [⟨"q1", "Q1", [], 0, 10, "cat"⟩, ⟨"q2", "Q2", [], 0, 10, "cat"⟩]
        [⟨"q1", true⟩, ⟨"q1", false⟩] "cat").completed
      = (getCategoryProgress
        [⟨"q1", "Q1", [], 0, 10, "cat"⟩, ⟨"q2", "Q2", [], 0, 10, "cat"⟩]
        [⟨"q1", true⟩, ⟨"q1", false⟩] "cat").total)
    ∧ ¬ (∀ q ∈ getCategoryQuizzes
          [⟨"q1", "Q1", [], 0, 10, "cat"⟩, ⟨"q2", "Q2", [], 0, 10, "cat"⟩] "cat",
          ∃ p ∈ ([⟨"q1", true⟩, ⟨"q1", false⟩] : List UserProgress),
            p.quiz_id = q.id) := by
  refine ⟨by decide, by decide, ?_⟩
  intro hall
  have := hall ⟨"q2", "Q2", [], 0, 10, "cat"⟩ (by decide)
  revert this
  decide

/-- C6 (amended): provided the category question ids are pairwise
distinct and the fetched progress holds at most one record per quiz id,
the completed count never exceeds the total (the ratio lies in [0,1])
and equals it exactly when every category question has a progress
record. -/
theorem category_progress_ratio (quizzes : List Quiz) (userProgress : List UserProgress)
    (categoryId : String)
    (hq : ((getCategoryQuizzes quizzes categoryId).map Quiz.id).Nodup)
    (hp : (userProgress.map UserProgress.quiz_id).Nodup) :
    (getCategoryProgress quizzes userProgress categoryId).completed
      ≤ (getCategoryProgress quizzes userProgress categoryId).total
    ∧ ((getCategoryProgress quizzes userProgress categoryId).completed
          = (getCategoryProgress quizzes userProgress categoryId).total
        ↔ ∀ q ∈ getCategoryQuizzes quizzes categoryId,
            ∃ p ∈ userProgress, p.quiz_id = q.id) := by
  have hcompleted : (getCategoryProgress quizzes userProgress categoryId).completed
      = (userProgress.filter (fun p => (getCategoryQuizzes quizzes categoryId).any
          (fun q => decide (q.id = p.quiz_id)))).length := rfl
  have htotal : (getCategoryProgress quizzes userProgress categoryId).total
      = (getCategoryQuizzes quizzes categoryId).length := rfl
  have hcompsub : (userProgress.filter (fun p => (getCategoryQuizzes quizzes categoryId).any
      (fun q => decide (q.id = p.quiz_id)))).Sublist userProgress :=
    List.filter_sublist _
  have hcompnodup : ((userProgress.filter
      (fun p => (getCategoryQuizzes quizzes categoryId).any
        (fun q => decide (q.id = p.quiz_id)))).map UserProgress.quiz_id).Nodup :=
    (hcompsub.map UserProgress.quiz_id).nodup hp
  have hsubset : (userProgress.filter
      (fun p => (getCategoryQuizzes quizzes categoryId).any
        (fun q => decide (q.id = p.quiz_id)))).map UserProgress.quiz_id
      ⊆ (getCategoryQuizzes quizzes categoryId).map Quiz.id := by
    intro x hx
    simp only [List.mem_map] at hx ⊢
    obtain ⟨p, hpmem, rfl⟩ := hx
    have hany := (List.mem_filter.mp hpmem).2
    simp only [List.any_eq_true, decide_eq_true_eq] at hany
    obtain ⟨qq, hqmem, hqid⟩ := hany
    exact ⟨qq, hqmem, hqid⟩
  have hle : (userProgress.filter
      (fun p => (getCategoryQuizzes quizzes categoryId).any
        (fun q => decide (q.id = p.quiz_id)))).length
      ≤ (getCategoryQuizzes quizzes categoryId).length := by
    have := (hcompnodup.subperm hsubset).length_le
    simpa using this
  rw [hcompleted, htotal]
  refine ⟨hle, ?_, ?_⟩
  · -- completed = total implies coverage
    intro heq q hq2
    by_contra hnone
    push_neg at hnone
    have hqid_mem : q.id ∈ (getCategoryQuizzes quizzes categoryId).map Quiz.id :=
      List.mem_map_of_mem Quiz.id hq2
    have hsub2 : (userProgress.filter
        (fun p => (getCategoryQuizzes quizzes categoryId).any
          (fun q2 => decide (q2.id = p.quiz_id)))).map UserProgress.quiz_id
        ⊆ ((getCategoryQuizzes quizzes categoryId).map Quiz.id).erase q.id := by
      intro x hx
      have hxid : x ∈ (getCategoryQuizzes quizzes categoryId).map Quiz.id := hsubset hx
      have hxne : x ≠ q.id := by
        simp only [List.mem_map] at hx
        obtain ⟨p, hpmem, rfl⟩ := hx
        exact hnone p (List.mem_of_mem_filter hpmem)
      rw [List.mem_erase_of_ne hxne]
      exact hxid
    have hlen2 := (hcompnodup.subperm hsub2).length_le
    rw [List.length_erase_of_mem hqid_mem] at hlen2
    have htotpos : 0 < (getCategoryQuizzes quizzes categoryId).length :=
      List.length_pos_of_mem hq2
    simp only [List.length_map] at hlen2
    omega
  · -- coverage implies completed = total
    intro hcov
    have hsup : (getCategoryQuizzes quizzes categoryId).map Quiz.id
        ⊆ (userProgress.filter
          (fun p => (getCategoryQuizzes quizzes categoryId).any
            (fun q2 => decide (q2.id = p.quiz_id)))).map UserProgress.quiz_id := by
      intro x hx
      simp only [List.mem_map] at hx
      obtain ⟨q2, hq2mem, rfl⟩ := hx
      obtain ⟨p, hpmem, hpid⟩ := hcov q2 hq2mem
      have hpcomp : p ∈ userProgress.filter
          (fun p2 => (getCategoryQuizzes quizzes categoryId).any
            (fun q3 => decide (q3.id = p2.quiz_id))) := by
        rw [List.mem_filter]
        refine ⟨hpmem, ?_⟩
        simp only [List.any_eq_true, decide_eq_true_eq]
        exact ⟨q2, hq2mem, hpid.symm⟩
      simp only [List.mem_map]
      exact ⟨p, hpcomp, hpid⟩
    have hge := (hq.subperm hsup).length_le
    simp only [List.length_map] at hge
    omega

/-- Witness for C6 (amended) on a two-question category fully answered
once each. -/
theorem category_progress_ratio_witness :
    ((getCategoryQuizzes
        [⟨"q1", "Q1", [], 0, 10, "cat"⟩, ⟨"q2", "Q2", [], 0, 10, "cat"⟩]
        "cat").map Quiz.id).Nodup
    ∧ (([⟨"q1", true⟩, ⟨"q2", false⟩] : List UserProgress).map
        UserProgress.quiz_id).Nodup
    ∧ ((getCategoryProgress
          [⟨"q1", "Q1", [], 0, 10, "cat"⟩, ⟨"q2", "Q2", [], 0, 10, "cat"⟩]
          [⟨"q1", true⟩, ⟨"q2", false⟩] "cat").completed
        ≤ (getCategoryProgress
          [⟨"q1", "Q1", [], 0, 10, "cat"⟩, ⟨"q2", "Q2", [], 0, 10, "cat"⟩]
          [⟨"q1", true⟩, ⟨"q2", false⟩] "cat").total
       ∧ ((getCategoryProgress
            [⟨"q1", "Q1", [], 0, 10, "cat"⟩, ⟨"q2", "Q2", [], 0, 10, "cat"⟩]
            [⟨"q1", true⟩, ⟨"q2", false⟩] "cat").completed
          = (getCategoryProgress
            [⟨"q1", "Q1", [], 0, 10, "cat"⟩, ⟨"q2", "Q2", [], 0, 10, "cat"⟩]
            [⟨"q1", true⟩, ⟨"q2", false⟩] "cat").total
        ↔ ∀ q ∈ getCategoryQuizzes
            [⟨"q1", "Q1", [], 0, 10, "cat"⟩, ⟨"q2", "Q2", [], 0, 10, "cat"⟩] "cat",
            ∃ p ∈ ([⟨"q1", true⟩, ⟨"q2", false⟩] : List UserProgress),
              p.quiz_id = q.id)) :=
  ⟨by decide, by decide,
    category_progress_ratio
      [⟨"q1", "Q1", [], 0, 10, "cat"⟩, ⟨"q2", "Q2", [], 0, 10, "cat"⟩]
      [⟨"q1", true⟩, ⟨"q2", false⟩] "cat" (by decide) (by decide)⟩

/-- Helper: `safeParse` succeeds exactly when no field has an issue. -/
theorem noErrors_iff (e : ContactErrors) :
    noErrors e = true ↔ e = ⟨none, none, none, none⟩ := by
  obtain ⟨n, em, s, m⟩ := e
  cases n <;> cases em <;> cases s <;> cases m <;> simp [noErrors]

/-- C9: each contact field passes its schema check exactly when it meets
the length (and email validity) bounds, a failing field gets its error
message set, and the insert is issued exactly when every check passes,
carrying the form fields verbatim. -/
theorem contact_validation_gates_insert (emailOk : String → Bool) (f : ContactForm) :
    ((contactValidate emailOk f).name = none
      ↔ 2 ≤ f.name.length ∧ f.name.length ≤ 100)
    ∧ ((contactValidate emailOk f).email = none
      ↔ emailOk f.email = true ∧ f.email.length ≤ 255)
    ∧ ((contactValidate emailOk f).subject = none
      ↔ 5 ≤ f.subject.length ∧ f.subject.length ≤ 200)
    ∧ ((contactValidate emailOk f).message = none
      ↔ 10 ≤ f.message.length ∧ f.message.length ≤ 1000)
    ∧ (issuedInsert (contactHandleSubmit emailOk f)
        = if noErrors (contactValidate emailOk f) = true
          then some ⟨f.name, f.email, f.subject, f.message⟩ else none)
    ∧ (issuedInsert (contactHandleSubmit emailOk f) ≠ none
        ↔ ((2 ≤ f.name.length ∧ f.name.length ≤ 100)
           ∧ (emailOk f.email = true ∧ f.email.length ≤ 255)
           ∧ (5 ≤ f.subject.length ∧ f.subject.length ≤ 200)
           ∧ (10 ≤ f.message.length ∧ f.message.length ≤ 1000))) := by
  have h1 : (contactValidate emailOk f).name = none
      ↔ 2 ≤ f.name.length ∧ f.name.length ≤ 100 := by
    simp only [contactValidate]
    split_ifs <;> simp_all
  have h2 : (contactValidate emailOk f).email = none
      ↔ emailOk f.email = true ∧ f.email.length ≤ 255 := by
    simp only [contactValidate]
    split_ifs <;> simp_all
  have h3 : (contactValidate emailOk f).subject = none
      ↔ 5 ≤ f.subject.length ∧ f.subject.length ≤ 200 := by
    simp only [contactValidate]
    split_ifs <;> simp_all
  have h4 : (contactValidate emailOk f).message = none
      ↔ 10 ≤ f.message.length ∧ f.message.length ≤ 1000 := by
    simp only [contactValidate]
    split_ifs <;> simp_all
  have h5 : issuedInsert (contactHandleSubmit emailOk f)
      = if noErrors (contactValidate emailOk f) = true
        then some ⟨f.name, f.email, f.subject, f.message⟩ else none := by
    have hsub : contactHandleSubmit emailOk f
        = if noErrors (contactValidate emailOk f) = true
          then ContactOutcome.inserted ⟨f.name, f.email, f.subject, f.message⟩
          else ContactOutcome.failure (contactValidate emailOk f) := rfl
    rw [hsub]
    by_cases hno : noErrors (contactValidate emailOk f) = true <;>
      simp [hno, issuedInsert]
  refine ⟨h1, h2, h3, h4, h5, ?_⟩
  rw [h5]
  by_cases hno : noErrors (contactValidate emailOk f) = true
  · have hall := (noErrors_iff _).mp hno
    simp only [hno, if_true]
    constructor
    · intro _
      exact ⟨h1.mp (by rw [hall]), h2.mp (by rw [hall]),
        h3.mp (by rw [hall]), h4.mp (by rw [hall])⟩
    · intro _
      simp
  · simp only [hno, if_false]
    constructor
    · intro hne
      exact absurd rfl hne
    · intro hcon
      exfalso
      apply hno
      apply (noErrors_iff _).mpr
      have e1 := h1.mpr hcon.1
      have e2 := h2.mpr hcon.2.1
      have e3 := h3.mpr hcon.2.2.1
      have e4 := h4.mpr hcon.2.2.2
      cases hE : contactValidate emailOk f with
      | mk n em s m =>
          rw [hE] at e1 e2 e3 e4
          simp only at e1 e2 e3 e4
          rw [e1, e2, e3, e4]

end CivicIndia
